import Mathlib

/-!
Shallow embedding of the social-media web application in `main.py`:
the persistence layer (User/Post records in a relational store), the
session resolver, and every request handler (registration, login,
logout, dashboard, post creation, profile retrieval, admin listing).

The database is modelled as the two tables in insertion (rowid) order
together with the auto-increment counters; each handler becomes a pure
function from its form/cookie inputs and the store to its HTTP outcome
(a redirect, a rendered-page data bundle, or a raised `HTTPException`)
and the successor store.  Timestamps (`datetime.now`) and the upload
filename (`uuid.uuid4()`) are inputs of the handlers that use them,
and the possibility of a file-system failure during post creation is
an explicit boolean input.
-/

namespace SocialApp

/-- Row of the `users` table (`class User` in `main.py`). -/
structure User where
  id : Nat
  username : String
  email : String
  hashed_password : String
  is_admin : Bool
deriving DecidableEq, Repr

/-- Row of the `posts` table (`class Post` in `main.py`). -/
structure Post where
  id : Nat
  content : String
  image_path : Option String
  created_at : Nat
  user_id : Nat
deriving DecidableEq, Repr

/-- The SQLite store: both tables in insertion (rowid) order, plus the
auto-increment primary-key counters. -/
structure DB where
  users : List User
  posts : List Post
  nextUserId : Nat
  nextPostId : Nat
deriving DecidableEq, Repr

/-- A fresh store (SQLite assigns ids starting from 1). -/
def emptyDB : DB := ⟨[], [], 1, 1⟩

/-- Model of `raise HTTPException(status_code=..., detail=...)`. -/
structure HTTPException where
  status_code : Nat
  detail : String
deriving DecidableEq, Repr

/-- Model of the black-box Credential Service (`passlib` bcrypt in the
source; the spec declares the hashing primitive out of scope, a provided
one-way hash + verify pair).  Only the contract that `pwd_verify`
recognises exactly the hashes produced by `pwd_hash` matters to the
handlers. -/
def pwd_hash (plaintext : String) : String := "bcrypt$" ++ plaintext

/-- Operation `pwd_context.verify` of the Credential Service model. -/
def pwd_verify (plaintext hashed : String) : Bool := hashed = pwd_hash plaintext

/-- Startup hook `create_superuser`, run by the `lifespan` manager; if the
`users` table is empty it inserts the `admin / admin@example.com / admin`
account with `is_admin=True`, otherwise it does nothing. -/
def create_superuser (db : DB) : DB :=
  if db.users.length = 0 then
    { db with
      users := db.users ++ [⟨db.nextUserId, "admin", "admin@example.com", pwd_hash "admin", true⟩],
      nextUserId := db.nextUserId + 1 }
  else
    db

/-- The Session Resolver `get_current_user`.  The session token is the
raw `username` cookie (absent ⇒ `none`); the Python test `if not username`
treats the empty string like a missing cookie; otherwise the first user
whose `username` equals the token is returned (`query(...).first()`). -/
def get_current_user (token : Option String) (db : DB) : Option User :=
  match token with
  | none => none
  | some username =>
    if username = "" then none
    else (db.users.filter (fun u => u.username = username)).head?

/-- The `HTTPException(400, ...)` raised by `register_user` on a
username/email collision. -/
def duplicateIdentityError : HTTPException :=
  ⟨400, "Username or email already registered"⟩

/-- Handler `register_user` for `POST /register`: reject when some existing user
has the requested username OR email (one combined filter); otherwise
hash the password, make the new account admin exactly when the store
holds zero users, insert it, and redirect to `/login`. -/
def register_user (username password email : String) (db : DB) :
    Except HTTPException (DB × String) :=
  match (db.users.filter (fun u => u.username = username || u.email = email)).head? with
  | some _ => .error duplicateIdentityError
  | none =>
    let hashed_password := pwd_hash password
    let is_admin := decide (db.users.length = 0)
    let new_user : User := ⟨db.nextUserId, username, email, hashed_password, is_admin⟩
    .ok ({ db with users := db.users ++ [new_user], nextUserId := db.nextUserId + 1 }, "/login")

/-- A registration request: (username, password, email). -/
def RegRequest : Type := String × String × String

/-- The store after one registration request: updated on success,
unchanged when the handler raises. -/
def registerStep (r : RegRequest) (db : DB) : DB :=
  match register_user r.1 r.2.1 r.2.2 db with
  | .ok (db', _) => db'
  | .error _ => db

/-- The store after a sequence of registration requests. -/
def runRegs (rs : List RegRequest) (db : DB) : DB :=
  rs.foldl (fun d r => registerStep r d) db

/-- The `HTTPException(401, ...)` raised by `login` for an unknown
username and for a failed password check alike. -/
def invalidCredentialsError : HTTPException :=
  ⟨401, "Invalid username or password"⟩

/-- Handler `login` for `POST /login`: look the user up by exact username; absent user or
failed `verify_password` both raise the same 401; on success redirect to
`/dashboard` and set the `username` cookie to the stored
username of the user.  Result: (redirect url, session-cookie value). -/
def login (username password : String) (db : DB) :
    Except HTTPException (String × String) :=
  match (db.users.filter (fun u => u.username = username)).head? with
  | none => .error invalidCredentialsError
  | some user =>
    if pwd_verify password user.hashed_password then
      .ok ("/dashboard", user.username)
    else
      .error invalidCredentialsError

/-- Handler `logout` for `GET /logout`: unconditionally delete the session cookie and
redirect to `/`.  Result: (redirect url, new session token). -/
def logout (_session : Option String) : String × Option String := ("/", none)

/-- Outcome of `GET /dashboard`: a redirect or the data of the rendered page. -/
inductive DashboardResult where
  | redirect (url : String)
  | page (user : User)
deriving DecidableEq, Repr

/-- Handler `dashboard` for `GET /dashboard`: redirect to `/login` when no identity resolves,
otherwise render for the current user. -/
def dashboard (token : Option String) (db : DB) : DashboardResult :=
  match get_current_user token db with
  | none => .redirect "/login"
  | some u => .page u

/-- Helper for `os.path.splitext(filename)[1]` on a bare filename: scan for the last
dot that has some non-dot character before it; `seen` records whether a
non-dot character has occurred yet (leading dots never open an
extension). -/
def splitextTail (seen : Bool) : List Char → Option (List Char)
  | [] => none
  | c :: cs =>
    if c = '.' then
      if seen then
        match splitextTail true cs with
        | some e => some e
        | none => some ('.' :: cs)
      else
        splitextTail false cs
    else
      splitextTail true cs

/-- The extension component returned by `os.path.splitext(filename)[1]`. -/
def splitext_ext (filename : String) : String :=
  match splitextTail false filename.toList with
  | some e => String.mk e
  | none => ""

/-- Constant `UPLOAD_DIR` of `main.py`. -/
def UPLOAD_DIR : String := "static/uploads"

/-- An uploaded file as `create_post` sees it (`UploadFile`): its client
filename; the raw bytes are opaque to the logic of the handler. -/
structure Image where
  filename : String
deriving DecidableEq, Repr

/-- Observable side effects of `create_post`, in the order the handler
performs them: the `open/write` of the uploaded image and the
`db.add/commit` of the new row. -/
inductive Event where
  | fsWrite (path : String)
  | dbWrite (postId : Nat)
deriving DecidableEq, Repr

/-- Outcome of `POST /post`: a redirect, or the propagated exception of a
failed file-system write. -/
inductive CreatePostResult where
  | redirect (url : String)
  | ioError
deriving DecidableEq, Repr

/-- Handler `create_post` for `POST /post`: redirect to `/login` when no identity
resolves.  With an attached image (present and non-empty filename, the
`if image and image.filename` truthiness test) the handler writes
the file `UPLOAD_DIR/uuid+ext` to disk first and only then inserts the Post
row storing the relative path `uploads/uuid+ext`; a failed write
(`fsOk = false`) raises before any row is inserted.  Without an image the
row is inserted with `image_path = None`.  `uuidStr` stands for
`uuid.uuid4()` and `now` for the `datetime.now` creation timestamp.
Result: (outcome, successor store, side-effect trace). -/
def create_post (token : Option String) (content : String) (image : Option Image)
    (uuidStr : String) (fsOk : Bool) (now : Nat) (db : DB) :
    CreatePostResult × DB × List Event :=
  match get_current_user token db with
  | none => (.redirect "/login", db, [])
  | some current_user =>
    let insertPost := fun (image_path : Option String) (evs : List Event) =>
      let new_post : Post := ⟨db.nextPostId, content, image_path, now, current_user.id⟩
      (CreatePostResult.redirect "/dashboard",
        { db with posts := db.posts ++ [new_post], nextPostId := db.nextPostId + 1 },
        evs ++ [Event.dbWrite new_post.id])
    match image with
    | some img =>
      if img.filename ≠ "" then
        let file_extension := splitext_ext img.filename
        let unique_filename := uuidStr ++ file_extension
        let write_path := UPLOAD_DIR ++ "/" ++ unique_filename
        if fsOk then
          insertPost (some ("uploads/" ++ unique_filename)) [Event.fsWrite write_path]
        else
          (.ioError, db, [])
      else
        insertPost none []
    | none => insertPost none []

/-- Insert a post into a list already sorted by `created_at` descending,
keeping it after every earlier post with an equal or newer timestamp:
the behaviour of a stable `ORDER BY` sort in the store for rows that
arrive in rowid order. -/
def insertPostDesc (p : Post) : List Post → List Post
  | [] => [p]
  | q :: qs =>
    if q.created_at ≤ p.created_at then p :: q :: qs else q :: insertPostDesc p qs

/-- Embedding of the ORM query modifier `.order_by(Post.created_at.desc())`:
a stable sort of the rows (taken in rowid = insertion order) by
`created_at`, newest first; rows with equal timestamps keep their
rowid order, which is how SQLite returns these queries. -/
def order_by_created_at_desc : List Post → List Post
  | [] => []
  | p :: ps => insertPostDesc p (order_by_created_at_desc ps)

/-- The `HTTPException(404, ...)` raised by `user_profile` for an unknown
username. -/
def notFoundError : HTTPException := ⟨404, "User not found"⟩

/-- Handler `user_profile` for the profile route: look the profile owner up
by username (404 when absent), fetch their posts ordered by `created_at`
descending, and hand (owner, posts, current viewer) to the template; the
viewer may be anonymous. -/
def user_profile (username : String) (token : Option String) (db : DB) :
    Except HTTPException (User × List Post × Option User) :=
  match (db.users.filter (fun u => u.username = username)).head? with
  | none => .error notFoundError
  | some profile_user =>
    .ok (profile_user,
      order_by_created_at_desc (db.posts.filter (fun p => p.user_id = profile_user.id)),
      get_current_user token db)

/-- The `HTTPException(403, ...)` raised by `admin_dashboard`. -/
def forbiddenError : HTTPException := ⟨403, "Not authorized"⟩

/-- Handler `admin_dashboard` for `GET /admin`: 403 when no identity resolves or the
identity is not an admin; otherwise hand every user (table order) and
every post ordered by `created_at` descending to the template. -/
def admin_dashboard (token : Option String) (db : DB) :
    Except HTTPException (List User × List Post × User) :=
  match get_current_user token db with
  | none => .error forbiddenError
  | some current_user =>
    if current_user.is_admin then
      .ok (db.users, order_by_created_at_desc db.posts, current_user)
    else
      .error forbiddenError

/-- The admin-flag pattern the spec requires of the user table: the first
row (the first successful registration) is the only admin. -/
def adminPattern : Nat → List Bool
  | 0 => []
  | n + 1 => true :: List.replicate n false

/-- The part of a profile response that does not depend on the viewer:
the owner and the ordered posts. -/
def profileView (r : Except HTTPException (User × List Post × Option User)) :
    Except HTTPException (User × List Post) :=
  r.map (fun x => (x.1, x.2.1))

/-! ## Helper lemmas about the stable descending sort -/

lemma insertPostDesc_perm (p : Post) (l : List Post) :
    (insertPostDesc p l).Perm (p :: l) := by
  induction l with
  | nil => exact List.Perm.refl _
  | cons q qs ih =>
    unfold insertPostDesc
    by_cases h : q.created_at ≤ p.created_at
    · rw [if_pos h]
    · rw [if_neg h]
      exact (ih.cons q).trans (List.Perm.swap p q qs)

lemma mem_insertPostDesc {x p : Post} {l : List Post} :
    x ∈ insertPostDesc p l ↔ x = p ∨ x ∈ l := by
  rw [(insertPostDesc_perm p l).mem_iff, List.mem_cons]

lemma insertPostDesc_pairwise {p : Post} {l : List Post}
    (h : l.Pairwise (fun a b => b.created_at ≤ a.created_at)) :
    (insertPostDesc p l).Pairwise (fun a b => b.created_at ≤ a.created_at) := by
  induction l with
  | nil => simp [insertPostDesc]
  | cons q qs ih =>
    rcases List.pairwise_cons.mp h with ⟨hq, hqs⟩
    unfold insertPostDesc
    by_cases hle : q.created_at ≤ p.created_at
    · rw [if_pos hle]
      refine List.pairwise_cons.mpr ⟨?_, h⟩
      intro x hx
      rcases List.mem_cons.mp hx with rfl | hx
      · exact hle
      · exact (hq x hx).trans hle
    · rw [if_neg hle]
      refine List.pairwise_cons.mpr ⟨?_, ih hqs⟩
      intro x hx
      rcases mem_insertPostDesc.mp hx with rfl | hx
      · exact Nat.le_of_lt (Nat.lt_of_not_le hle)
      · exact hq x hx

lemma order_by_created_at_desc_perm (l : List Post) :
    (order_by_created_at_desc l).Perm l := by
  induction l with
  | nil => exact List.Perm.refl _
  | cons p ps ih =>
    exact (insertPostDesc_perm p (order_by_created_at_desc ps)).trans (ih.cons p)

lemma order_by_created_at_desc_pairwise (l : List Post) :
    (order_by_created_at_desc l).Pairwise (fun a b => b.created_at ≤ a.created_at) := by
  induction l with
  | nil => simp [order_by_created_at_desc]
  | cons p ps ih => exact insertPostDesc_pairwise ih

lemma insertPostDesc_filter_created_at (p : Post) (l : List Post) (t : Nat) :
    (insertPostDesc p l).filter (fun q => q.created_at = t)
      = if p.created_at = t then p :: l.filter (fun q => q.created_at = t)
        else l.filter (fun q => q.created_at = t) := by
  induction l with
  | nil =>
    by_cases hp : p.created_at = t <;> simp [insertPostDesc, hp]
  | cons q qs ih =>
    unfold insertPostDesc
    by_cases hle : q.created_at ≤ p.created_at
    · rw [if_pos hle]
      by_cases hp : p.created_at = t <;> simp [List.filter_cons, hp]
    · rw [if_neg hle]
      by_cases hp : p.created_at = t
      · have hq : ¬ q.created_at = t := by
          intro hq
          exact hle (by omega)
        simp [List.filter_cons, hq, ih, hp]
      · by_cases hq : q.created_at = t <;> simp [List.filter_cons, hq, ih, hp]

lemma order_by_created_at_desc_filter (l : List Post) (t : Nat) :
    (order_by_created_at_desc l).filter (fun q => q.created_at = t)
      = l.filter (fun q => q.created_at = t) := by
  induction l with
  | nil => rfl
  | cons p ps ih =>
    unfold order_by_created_at_desc
    rw [insertPostDesc_filter_created_at]
    by_cases hp : p.created_at = t <;> simp [List.filter_cons, hp, ih]

/-! ## Helper lemmas about the session resolver -/

lemma get_current_user_elim {token : Option String} {db : DB} {u : User}
    (h : get_current_user token db = some u) :
    token = some u.username ∧ u.username ≠ "" ∧
      (db.users.filter (fun x => x.username = u.username)).head? = some u := by
  cases token with
  | none => exact absurd h (by simp [get_current_user])
  | some s =>
    simp only [get_current_user] at h
    by_cases hs : s = ""
    · rw [if_pos hs] at h
      exact absurd h (by simp)
    · rw [if_neg hs] at h
      have hu : u ∈ db.users.filter (fun x => x.username = s) :=
        List.mem_of_mem_head? (by simp [h])
      have huname : u.username = s := by
        simpa using (List.mem_filter.mp hu).2
      subst huname
      exact ⟨rfl, hs, h⟩

lemma get_current_user_eq_of_users_eq {token : Option String} {db db' : DB}
    (h : db.users = db'.users) :
    get_current_user token db = get_current_user token db' := by
  unfold get_current_user
  cases token with
  | none => rfl
  | some s => rw [h]

/-! ## Helper lemmas for the first-registration-is-admin invariant -/

lemma adminPattern_snoc (l : List User) (x : User)
    (h : l.map (fun u => u.is_admin) = adminPattern l.length)
    (hx : x.is_admin = decide (l.length = 0)) :
    (l ++ [x]).map (fun u => u.is_admin) = adminPattern (l ++ [x]).length := by
  cases l with
  | nil =>
    simp at hx
    simp [adminPattern, hx]
  | cons v vs =>
    simp only [List.length_cons] at hx
    have hx' : x.is_admin = false := by simp [hx]
    simp only [List.map_append, List.map_cons, List.map_nil, h, hx',
      List.length_append, List.length_cons, List.length_nil]
    show adminPattern (vs.length + 1) ++ [false] = adminPattern (vs.length + 1 + 1)
    simp [adminPattern, List.replicate_succ']

lemma registerStep_adminPattern (r : RegRequest) (db : DB)
    (h : db.users.map (fun u => u.is_admin) = adminPattern db.users.length) :
    (registerStep r db).users.map (fun u => u.is_admin)
      = adminPattern (registerStep r db).users.length := by
  unfold registerStep register_user
  cases hm : (db.users.filter (fun u => u.username = r.1 || u.email = r.2.2)).head? with
  | some u => simpa using h
  | none =>
    simp only []
    exact adminPattern_snoc db.users _ h rfl

lemma runRegs_adminPattern (rs : List RegRequest) (db : DB)
    (h : db.users.map (fun u => u.is_admin) = adminPattern db.users.length) :
    (runRegs rs db).users.map (fun u => u.is_admin)
      = adminPattern (runRegs rs db).users.length := by
  induction rs generalizing db with
  | nil => exact h
  | cons r rs ih =>
    show (runRegs rs (registerStep r db)).users.map (fun u => u.is_admin)
      = adminPattern (runRegs rs (registerStep r db)).users.length
    exact ih _ (registerStep_adminPattern r db h)

/-! ## The claims -/

/-- **C1**: for every sequence of registration requests processed from an
empty store, the admin flags of the resulting user table follow the
pattern `true, false, false, ...` — the user created by the first
successful registration (row 1) has `is_admin = true` and the user
created by every subsequent successful registration has
`is_admin = false`, regardless of the submitted inputs (failed
registrations insert no row). -/
theorem first_registration_only_admin (rs : List RegRequest) :
    (runRegs rs emptyDB).users.map (fun u => u.is_admin)
      = adminPattern (runRegs rs emptyDB).users.length :=
  runRegs_adminPattern rs emptyDB rfl

/-- **C2**: at startup, if the store holds zero users, `create_superuser`
creates exactly one user, with username `admin`, email
`admin@example.com`, the hash of password `admin`, and `is_admin = true`;
and after startup the store is always non-empty, whatever it held
before. -/
theorem startup_seeds_admin_user (db : DB) :
    (db.users = [] →
      (create_superuser db).users.map
          (fun u => (u.username, u.email, u.hashed_password, u.is_admin))
        = [("admin", "admin@example.com", pwd_hash "admin", true)])
    ∧ (create_superuser db).users ≠ [] := by
  constructor
  · intro h
    simp [create_superuser, h]
  · unfold create_superuser
    cases hus : db.users with
    | nil => simp [hus]
    | cons v vs => simp [hus]

/-- Witness for **C2** at the concrete empty store. -/
theorem startup_seeds_admin_user_witness :
    (create_superuser emptyDB).users.map
        (fun u => (u.username, u.email, u.hashed_password, u.is_admin))
      = [("admin", "admin@example.com", pwd_hash "admin", true)] :=
  (startup_seeds_admin_user emptyDB).1 rfl

/-- **C3**: login fails with the `InvalidCredentials` error — one single
error value, so status and message are identical for both causes — if
and only if no user has the submitted username or the password fails
verification against the stored hash of the user found; and on success
the handler redirects to `/dashboard` with the session token set to the
stored username of the user. -/
theorem login_invalid_credentials_iff (username password : String) (db : DB) :
    (login username password db = .error invalidCredentialsError ↔
      ((∀ u ∈ db.users, ¬ u.username = username) ∨
        ∃ u, (db.users.filter (fun x => x.username = username)).head? = some u ∧
          pwd_verify password u.hashed_password = false))
    ∧ (∀ u, (db.users.filter (fun x => x.username = username)).head? = some u →
        pwd_verify password u.hashed_password = true →
        login username password db = .ok ("/dashboard", u.username)) := by
  unfold login
  cases hm : (db.users.filter (fun x => x.username = username)).head? with
  | none =>
    have hnil : db.users.filter (fun x => x.username = username) = [] :=
      List.head?_eq_none_iff.mp hm
    constructor
    · simp only [true_iff]
      left
      intro u hu hname
      have : u ∈ db.users.filter (fun x => x.username = username) :=
        List.mem_filter.mpr ⟨hu, by simp [hname]⟩
      simp [hnil] at this
    · intro u hu
      exact absurd hu (by simp)
  | some u =>
    dsimp only
    by_cases hv : pwd_verify password u.hashed_password = true
    · rw [if_pos hv]
      refine ⟨iff_of_false (by simp) ?_, ?_⟩
      · rintro (hall | ⟨u', hu', hv'⟩)
        · have humem : u ∈ db.users.filter (fun x => x.username = username) :=
            List.mem_of_mem_head? (by simp [hm])
          rcases List.mem_filter.mp humem with ⟨humem', hname⟩
          exact hall u humem' (by simpa using hname)
        · injection hu' with hu'
          subst hu'
          rw [hv] at hv'
          simp at hv'
      · intro u' hu' _
        injection hu' with hu'
        rw [hu']
    · rw [if_neg hv]
      refine ⟨iff_of_true rfl (Or.inr ⟨u, rfl, Bool.eq_false_iff.mpr hv⟩), ?_⟩
      intro u' hu' hv'
      injection hu' with hu'
      subst hu'
      exact absurd hv' hv

/-- Witness for **C3**: in the store obtained by registering `alice`, a
login as `alice` with the correct password succeeds, redirects to
`/dashboard` and issues the session token `alice`. -/
theorem login_invalid_credentials_iff_witness :
    login "alice" "pw1" (runRegs [("alice", "pw1", "a@x.com")] emptyDB)
      = .ok ("/dashboard", "alice") :=
  (login_invalid_credentials_iff "alice" "pw1"
      (runRegs [("alice", "pw1", "a@x.com")] emptyDB)).2
    ⟨1, "alice", "a@x.com", pwd_hash "pw1", true⟩ (by decide) (by decide)

/-- **C4**: registration fails with the `DuplicateIdentity` error — one
single error value, whichever field collides — if and only if some
existing user already has the requested username or the requested email
(the handler checks the disjunction as one combined filter); and in the
duplicate case the store is left unchanged, so no user is created. -/
theorem register_duplicate_rejected (username password email : String) (db : DB) :
    (register_user username password email db = .error duplicateIdentityError ↔
      ∃ u ∈ db.users, u.username = username ∨ u.email = email)
    ∧ ((∃ u ∈ db.users, u.username = username ∨ u.email = email) →
        registerStep (username, password, email) db = db) := by
  unfold registerStep register_user
  cases hm : (db.users.filter (fun u => u.username = username || u.email = email)).head? with
  | none =>
    have hnil : db.users.filter (fun u => u.username = username || u.email = email) = [] :=
      List.head?_eq_none_iff.mp hm
    have hno : ¬ ∃ u ∈ db.users, u.username = username ∨ u.email = email := by
      rintro ⟨u, hu, hor⟩
      have : u ∈ db.users.filter (fun u => u.username = username || u.email = email) :=
        List.mem_filter.mpr ⟨hu, by rcases hor with h | h <;> simp [h]⟩
      simp [hnil] at this
    exact ⟨iff_of_false (by simp) hno, fun h => absurd h hno⟩
  | some u =>
    have humem : u ∈ db.users.filter (fun x => x.username = username || x.email = email) :=
      List.mem_of_mem_head? (by simp [hm])
    rcases List.mem_filter.mp humem with ⟨humem', hpred⟩
    have hor : u.username = username ∨ u.email = email := by simpa using hpred
    exact ⟨iff_of_true rfl ⟨u, humem', hor⟩, fun _ => rfl⟩

/-- Witness for **C4**: registering the username `alice` a second time
(with a fresh email) leaves the store unchanged. -/
theorem register_duplicate_rejected_witness :
    registerStep ("alice", "zz", "c@x.com") (runRegs [("alice", "pw1", "a@x.com")] emptyDB)
      = runRegs [("alice", "pw1", "a@x.com")] emptyDB :=
  (register_duplicate_rejected "alice" "zz" "c@x.com"
      (runRegs [("alice", "pw1", "a@x.com")] emptyDB)).2
    ⟨⟨1, "alice", "a@x.com", pwd_hash "pw1", true⟩, by decide, by decide⟩

/-- **C5**: the admin listing fails with the `Forbidden` error if and
only if no identity is resolved or the resolved identity has
`is_admin = false`; otherwise it returns the full user table in
insertion order together with the full post table ordered by
`created_at` descending. -/
theorem admin_listing_access (token : Option String) (db : DB) :
    (admin_dashboard token db = .error forbiddenError ↔
      (get_current_user token db = none ∨
        ∃ u, get_current_user token db = some u ∧ u.is_admin = false))
    ∧ (∀ u, get_current_user token db = some u → u.is_admin = true →
        ∃ ps, admin_dashboard token db = .ok (db.users, ps, u)
          ∧ ps.Perm db.posts
          ∧ ps.Pairwise (fun a b => b.created_at ≤ a.created_at)) := by
  unfold admin_dashboard
  cases hg : get_current_user token db with
  | none =>
    refine ⟨iff_of_true rfl (Or.inl rfl), ?_⟩
    intro u hu
    exact absurd hu (by simp)
  | some u =>
    dsimp only
    by_cases ha : u.is_admin = true
    · rw [if_pos ha]
      refine ⟨iff_of_false (by simp) ?_, ?_⟩
      · rintro (h | ⟨u', hu', ha'⟩)
        · exact absurd h (by simp)
        · injection hu' with hu'
          subst hu'
          rw [ha] at ha'
          simp at ha'
      · intro u' hu' _
        injection hu' with hu'
        subst hu'
        exact ⟨order_by_created_at_desc db.posts, rfl,
          order_by_created_at_desc_perm db.posts,
          order_by_created_at_desc_pairwise db.posts⟩
    · rw [if_neg ha]
      refine ⟨iff_of_true rfl (Or.inr ⟨u, rfl, Bool.eq_false_iff.mpr ha⟩), ?_⟩
      intro u' hu' ha'
      injection hu' with hu'
      subst hu'
      exact absurd ha' ha

/-- Witness for **C5**: in the store seeded at startup, the `admin`
session reaches the admin listing and receives the users and the
sorted posts. -/
theorem admin_listing_access_witness :
    ∃ ps, admin_dashboard (some "admin") (create_superuser emptyDB)
        = .ok ((create_superuser emptyDB).users, ps,
            ⟨1, "admin", "admin@example.com", pwd_hash "admin", true⟩)
      ∧ ps.Perm (create_superuser emptyDB).posts
      ∧ ps.Pairwise (fun a b => b.created_at ≤ a.created_at) :=
  (admin_listing_access (some "admin") (create_superuser emptyDB)).2
    ⟨1, "admin", "admin@example.com", pwd_hash "admin", true⟩ (by decide) rfl

/-- **C7**: for an authenticated post-creation request with an attached
image, the handler performs the file-system write strictly before the
database write (the side-effect trace is exactly
`[fsWrite ..., dbWrite ...]`), and when the file write fails the
handler raises, the store is unchanged — no Post row is created — and
no side effect is recorded. -/
theorem create_post_fs_write_before_db_write (token : Option String) (content : String)
    (img : Image) (uuidStr : String) (now : Nat) (db : DB) (u : User)
    (hu : get_current_user token db = some u) (hname : img.filename ≠ "") :
    ((create_post token content (some img) uuidStr true now db).2.2
      = [Event.fsWrite (UPLOAD_DIR ++ "/" ++ (uuidStr ++ splitext_ext img.filename)),
         Event.dbWrite db.nextPostId])
    ∧ ((create_post token content (some img) uuidStr false now db).1
        = CreatePostResult.ioError
      ∧ (create_post token content (some img) uuidStr false now db).2.1 = db
      ∧ (create_post token content (some img) uuidStr false now db).2.2 = []) := by
  refine ⟨?_, ?_, ?_, ?_⟩ <;> simp [create_post, hu, hname]

/-- Witness for **C7** at a concrete authenticated request with image
`pic.png` in the startup store. -/
theorem create_post_fs_write_before_db_write_witness :
    (create_post (some "admin") "hello" (some ⟨"pic.png"⟩) "uuid1" true 5
        (create_superuser emptyDB)).2.2
      = [Event.fsWrite (UPLOAD_DIR ++ "/" ++ ("uuid1" ++ splitext_ext "pic.png")),
         Event.dbWrite (create_superuser emptyDB).nextPostId] :=
  (create_post_fs_write_before_db_write (some "admin") "hello" ⟨"pic.png"⟩ "uuid1" 5
      (create_superuser emptyDB) ⟨1, "admin", "admin@example.com", pwd_hash "admin", true⟩
      (by decide) (by decide)).1

/-- **C8, counterexample**: the claim says the resolver returns the
matching user exactly when some user has a username equal to the token.
But registration accepts an empty username (the source has no input
validation), login then succeeds and issues the session token `""` —
and for that token the resolver returns no identity even though a user
whose username equals the token exists.  The store below is built by
the code itself: startup seeding followed by one registration. -/
theorem session_resolver_counterexample :
    login "" "pw" (runRegs [("", "pw", "e@x.com")] (create_superuser emptyDB))
      = .ok ("/dashboard", "")
    ∧ (∃ u ∈ (runRegs [("", "pw", "e@x.com")] (create_superuser emptyDB)).users,
        u.username = "")
    ∧ get_current_user (some "")
        (runRegs [("", "pw", "e@x.com")] (create_superuser emptyDB)) = none := by
  refine ⟨rfl, ⟨⟨2, "", "e@x.com", pwd_hash "pw", false⟩, by decide, rfl⟩, rfl⟩

/-- **C8, amended**: the Session Resolver is total and never throws; it
returns an explicit no-identity result for a missing or empty token,
and for a non-empty token it returns the matching user record exactly
when some user has a username equal to the token (and no identity
exactly when none has). -/
theorem session_resolver_total (token : Option String) (db : DB) :
    ((token = none ∨ token = some "") → get_current_user token db = none)
    ∧ (∀ s, token = some s → s ≠ "" →
        (((∃ u, get_current_user token db = some u ∧ u ∈ db.users ∧ u.username = s)
            ↔ ∃ u ∈ db.users, u.username = s)
          ∧ (get_current_user token db = none ↔ ∀ u ∈ db.users, ¬ u.username = s))) := by
  constructor
  · rintro (rfl | rfl) <;> simp [get_current_user]
  · rintro s rfl hs
    simp only [get_current_user]
    rw [if_neg hs]
    constructor
    · constructor
      · rintro ⟨u, _, hu, hname⟩
        exact ⟨u, hu, hname⟩
      · rintro ⟨u, hu, hname⟩
        cases hm : (db.users.filter (fun x => x.username = s)).head? with
        | none =>
          have hnil := List.head?_eq_none_iff.mp hm
          have : u ∈ db.users.filter (fun x => x.username = s) :=
            List.mem_filter.mpr ⟨hu, by simp [hname]⟩
          simp [hnil] at this
        | some u₀ =>
          have hmem : u₀ ∈ db.users.filter (fun x => x.username = s) :=
            List.mem_of_mem_head? (by simp [hm])
          rcases List.mem_filter.mp hmem with ⟨hmem', hname₀⟩
          exact ⟨u₀, rfl, hmem', by simpa using hname₀⟩
    · constructor
      · intro hm
        have hnil := List.head?_eq_none_iff.mp hm
        intro u hu hname
        have : u ∈ db.users.filter (fun x => x.username = s) :=
          List.mem_filter.mpr ⟨hu, by simp [hname]⟩
        simp [hnil] at this
      · intro hall
        rw [List.head?_eq_none_iff]
        exact List.filter_eq_nil_iff.mpr (fun u hu => by simpa using hall u hu)

/-- Witness for the amended **C8** at the startup store and the `admin`
token. -/
theorem session_resolver_total_witness :
    ((∃ u, get_current_user (some "admin") (create_superuser emptyDB) = some u
        ∧ u ∈ (create_superuser emptyDB).users ∧ u.username = "admin")
      ↔ ∃ u ∈ (create_superuser emptyDB).users, u.username = "admin")
    ∧ (get_current_user (some "admin") (create_superuser emptyDB) = none ↔
        ∀ u ∈ (create_superuser emptyDB).users, ¬ u.username = "admin") :=
  (session_resolver_total (some "admin") (create_superuser emptyDB)).2 "admin" rfl
    (by decide)

/-- **C9**: with no resolved identity, the protected views (dashboard
and post creation) respond with a redirect to `/login`, not an error,
and post creation leaves the store untouched; in particular the session
token produced by logout never resolves, so after logout every
protected view redirects to `/login`. -/
theorem protected_views_redirect (token : Option String) (db : DB) (content : String)
    (image : Option Image) (uuidStr : String) (fsOk : Bool) (now : Nat)
    (h : get_current_user token db = none) :
    dashboard token db = .redirect "/login"
    ∧ (create_post token content image uuidStr fsOk now db).1
        = CreatePostResult.redirect "/login"
    ∧ (create_post token content image uuidStr fsOk now db).2.1 = db
    ∧ (∀ (t₀ : Option String) (db' : DB),
        dashboard (logout t₀).2 db' = .redirect "/login"
        ∧ (create_post (logout t₀).2 content image uuidStr fsOk now db').1
            = CreatePostResult.redirect "/login") := by
  refine ⟨by simp [dashboard, h], by simp [create_post, h], by simp [create_post, h], ?_⟩
  intro t₀ db'
  have hg : get_current_user (logout t₀).2 db' = none := rfl
  exact ⟨by simp [dashboard, hg], by simp [create_post, hg]⟩

/-- Witness for **C9** at the anonymous request on the empty store. -/
theorem protected_views_redirect_witness :
    dashboard none emptyDB = DashboardResult.redirect "/login" :=
  (protected_views_redirect none emptyDB "hello" none "u" true 0 rfl).1

/-- **C10**: profile retrieval for a username no user has fails with the
`NotFound` error, for any viewer; and the profile data (owner and
ordered posts) never depends on the resolved identity — profiles are
public, no identity is required. -/
theorem profile_not_found_and_public (username : String) (token : Option String) (db : DB) :
    ((∀ u ∈ db.users, ¬ u.username = username) →
      user_profile username token db = .error notFoundError)
    ∧ (∀ token' : Option String,
        profileView (user_profile username token db)
          = profileView (user_profile username token' db)) := by
  constructor
  · intro h
    have hnil : db.users.filter (fun x => x.username = username) = [] :=
      List.filter_eq_nil_iff.mpr (fun u hu => by simpa using h u hu)
    simp [user_profile, hnil]
  · intro token'
    unfold user_profile profileView
    cases hm : (db.users.filter (fun x => x.username = username)).head? <;>
      simp [Except.map]

/-- Witness for **C10**: an unknown profile 404s on the startup store. -/
theorem profile_not_found_and_public_witness :
    user_profile "ghost" none (create_superuser emptyDB) = .error notFoundError :=
  (profile_not_found_and_public "ghost" none (create_superuser emptyDB)).1 (by decide)

/-- **C6**: the posts a profile returns are exactly the posts of the
profile owner (a permutation of the ownership filter of the table),
ordered by `created_at` descending, and posts with equal timestamps
keep their insertion/id order — so the result is determined; in
particular creating post P1 and then post P2 (at a strictly later
server timestamp) for a user with no posts makes the profile return
`[P2, P1]`. -/
theorem profile_posts_newest_first :
    (∀ (uname : String) (token : Option String) (db : DB) (u : User)
        (posts : List Post) (viewer : Option User),
        user_profile uname token db = .ok (u, posts, viewer) →
        posts.Perm (db.posts.filter (fun p => p.user_id = u.id))
        ∧ posts.Pairwise (fun a b => b.created_at ≤ a.created_at)
        ∧ ∀ t, posts.filter (fun p => p.created_at = t)
            = (db.posts.filter (fun p => p.user_id = u.id)).filter
                (fun p => p.created_at = t))
    ∧ (∀ (db : DB) (token : Option String) (u : User) (c₁ c₂ s₁ s₂ : String)
        (t₁ t₂ : Nat),
        get_current_user token db = some u →
        db.posts.filter (fun p => p.user_id = u.id) = [] →
        t₁ < t₂ →
        ∃ P₁ P₂ viewer,
          user_profile u.username token
              (create_post token c₂ none s₂ true t₂
                (create_post token c₁ none s₁ true t₁ db).2.1).2.1
            = .ok (u, [P₂, P₁], viewer)
          ∧ P₁.content = c₁ ∧ P₁.created_at = t₁ ∧ P₁.user_id = u.id
          ∧ P₂.content = c₂ ∧ P₂.created_at = t₂ ∧ P₂.user_id = u.id) := by
  constructor
  · intro uname token db u posts viewer h
    unfold user_profile at h
    cases hm : (db.users.filter (fun x => x.username = uname)).head? with
    | none =>
      rw [hm] at h
      exact absurd h (by simp)
    | some pu =>
      rw [hm] at h
      simp only [Except.ok.injEq, Prod.mk.injEq] at h
      obtain ⟨rfl, rfl, rfl⟩ := h
      exact ⟨order_by_created_at_desc_perm _,
        order_by_created_at_desc_pairwise _,
        fun t => order_by_created_at_desc_filter _ t⟩
  · intro db token u c₁ c₂ s₁ s₂ t₁ t₂ hg hfil ht
    obtain ⟨htok, hne, hhead⟩ := get_current_user_elim hg
    have e1 : (create_post token c₁ none s₁ true t₁ db).2.1
        = { db with
            posts := db.posts ++ [⟨db.nextPostId, c₁, none, t₁, u.id⟩],
            nextPostId := db.nextPostId + 1 } := by
      simp [create_post, hg]
    have hg1 : get_current_user token
        { db with
          posts := db.posts ++ [⟨db.nextPostId, c₁, none, t₁, u.id⟩],
          nextPostId := db.nextPostId + 1 } = some u :=
      (get_current_user_eq_of_users_eq rfl).trans hg
    have e2 : (create_post token c₂ none s₂ true t₂
        { db with
          posts := db.posts ++ [⟨db.nextPostId, c₁, none, t₁, u.id⟩],
          nextPostId := db.nextPostId + 1 }).2.1
        = { db with
            posts := db.posts ++ [⟨db.nextPostId, c₁, none, t₁, u.id⟩]
              ++ [⟨db.nextPostId + 1, c₂, none, t₂, u.id⟩],
            nextPostId := db.nextPostId + 1 + 1 } := by
      simp [create_post, hg1]
    refine ⟨⟨db.nextPostId, c₁, none, t₁, u.id⟩,
      ⟨db.nextPostId + 1, c₂, none, t₂, u.id⟩, ?_⟩
    rw [e1, e2]
    refine ⟨get_current_user token
      { db with
        posts := db.posts ++ [⟨db.nextPostId, c₁, none, t₁, u.id⟩]
          ++ [⟨db.nextPostId + 1, c₂, none, t₂, u.id⟩],
        nextPostId := db.nextPostId + 1 + 1 }, ?_, rfl, rfl, rfl, rfl, rfl, rfl⟩
    unfold user_profile
    dsimp only
    rw [hhead]
    dsimp only
    have hposts : (db.posts ++ [(⟨db.nextPostId, c₁, none, t₁, u.id⟩ : Post)]
          ++ [(⟨db.nextPostId + 1, c₂, none, t₂, u.id⟩ : Post)]).filter
            (fun p => p.user_id = u.id)
        = [⟨db.nextPostId, c₁, none, t₁, u.id⟩, ⟨db.nextPostId + 1, c₂, none, t₂, u.id⟩] := by
      simp [List.filter_append, hfil]
    rw [hposts]
    have hsort : order_by_created_at_desc
        [(⟨db.nextPostId, c₁, none, t₁, u.id⟩ : Post),
         ⟨db.nextPostId + 1, c₂, none, t₂, u.id⟩]
        = [⟨db.nextPostId + 1, c₂, none, t₂, u.id⟩, ⟨db.nextPostId, c₁, none, t₁, u.id⟩] := by
      simp [order_by_created_at_desc, insertPostDesc]
      omega
    rw [hsort]

/-- Witness for **C6**: in the startup store, `admin` creates the posts
`hello` at time 1 and `world` at time 2; the profile then lists `world`
before `hello`. -/
theorem profile_posts_newest_first_witness :
    ∃ P₁ P₂ viewer,
      user_profile "admin" (some "admin")
          (create_post (some "admin") "world" none "u2" true 2
            (create_post (some "admin") "hello" none "u1" true 1
              (create_superuser emptyDB)).2.1).2.1
        = .ok (⟨1, "admin", "admin@example.com", pwd_hash "admin", true⟩, [P₂, P₁], viewer)
      ∧ P₁.content = "hello" ∧ P₁.created_at = 1 ∧ P₁.user_id = 1
      ∧ P₂.content = "world" ∧ P₂.created_at = 2 ∧ P₂.user_id = 1 :=
  profile_posts_newest_first.2 (create_superuser emptyDB) (some "admin")
    ⟨1, "admin", "admin@example.com", pwd_hash "admin", true⟩
    "hello" "world" "u1" "u2" 1 2 (by decide) rfl (by decide)

end SocialApp
